import Mathlib

/-!
Shallow embedding of the LND-DEA reconciliation and notification core.

The embedding translates the services layer of the repository:
  - `src/services/dbService.ts` (ledger store adapter),
  - `src/services/lndService.ts` and the two near-duplicate `LndService`
    variants found in the unnamed source parts (identifier normalizer,
    outgoing-payment flow, polling tick, webhook dispatcher),
  - `src/services/lndMonitorService.ts` (account resolver),
  - `src/controllers/accountController.ts` (the balance endpoint).

Conventions of the embedding:
  - Database rows live in an explicit `DbState`; Prisma calls become pure
    functions from `DbState` (fallible ones return `Except`).
  - The `amount` column is a TEXT decimal in the schema and is always consumed
    through JavaScript `BigInt`; it is modelled as `Int`.
  - `createdAt` / `updatedAt` timestamps are `Nat`; the clock is passed in.
  - Fresh row identifiers (Prisma `uuid()`) are passed in as arguments.
  - External collaborators (the LND REST API, the JS regular-expression
    engine, the `crypto` HMAC primitive) are modelled as explicit function
    arguments, mirroring the dependency injection in the source constructors.
-/

namespace LndDea

/-- Transaction direction, `TransactionType` in the Prisma schema. -/
inductive TransactionType
  | INCOMING
  | OUTGOING
deriving DecidableEq, Repr

/-- Transaction status, `TransactionStatus` in the Prisma schema. -/
inductive TransactionStatus
  | PENDING
  | COMPLETE
  | FAILED
deriving DecidableEq, Repr

/-- An `Account` row. -/
structure Account where
  id : String
  name : String
  description : Option String
  createdAt : Nat
  updatedAt : Nat
deriving DecidableEq, Repr

/-- A `LightningTransaction` row.  `rHash` is the canonical external hash and
is declared `@unique` in the schema. -/
structure LightningTransaction where
  id : String
  accountId : String
  rHash : String
  amount : Int
  type : TransactionType
  status : TransactionStatus
  memo : Option String
  createdAt : Nat
  updatedAt : Nat
deriving DecidableEq, Repr

/-- The persistent store: the `Account` and `LightningTransaction` tables. -/
structure DbState where
  accounts : List Account
  transactions : List LightningTransaction
deriving DecidableEq, Repr

/-- Embedding of `AccountSummary` as returned by `DbService` (balance is derived). -/
structure AccountSummary where
  id : String
  name : String
  description : Option String
  balance : Int
  createdAt : Nat
  updatedAt : Nat
deriving DecidableEq, Repr

/-- Embedding of `TransactionSummary` as returned by `DbService`. -/
structure TransactionSummary where
  id : String
  accountId : String
  rHash : String
  amount : Int
  type : TransactionType
  status : TransactionStatus
  memo : Option String
  createdAt : Nat
  updatedAt : Nat
deriving DecidableEq, Repr

/-- View a stored transaction row as the summary `DbService` returns. -/
def txSummary (tx : LightningTransaction) : TransactionSummary :=
  { id := tx.id, accountId := tx.accountId, rHash := tx.rHash,
    amount := tx.amount, type := tx.type, status := tx.status,
    memo := tx.memo, createdAt := tx.createdAt, updatedAt := tx.updatedAt }

/-- Errors surfaced by the store adapter.  `DbService` throws `NotFoundError`
for a missing account or transaction and a plain duplicate error
("Transaction with payment hash ... already exists") for a repeated hash. -/
inductive DbErr
  | accountNotFound (id : String)
  | transactionNotFound (rHash : String)
  | duplicateRHash (rHash : String)
deriving DecidableEq, Repr

/-- The reduce step of the balance computation in `DbService.getAccount` and
`DbService.getAllAccounts`: add INCOMING amounts, subtract OUTGOING ones.
Note there is no status filter in those two functions. -/
def txBalanceStep (total : Int) (tx : LightningTransaction) : Int :=
  match tx.type with
  | .INCOMING => total + tx.amount
  | .OUTGOING => total - tx.amount

/-- The transactions Prisma `include`s for an account (`accountId` relation). -/
def accountTransactions (st : DbState) (accountId : String) : List LightningTransaction :=
  st.transactions.filter (fun tx => tx.accountId == accountId)

/-- Build the summary `DbService.getAccount` returns for one account row:
the balance reduces over ALL of the account transactions, every status. -/
def accountSummaryOf (st : DbState) (a : Account) : AccountSummary :=
  { id := a.id, name := a.name, description := a.description,
    balance := (accountTransactions st a.id).foldl txBalanceStep 0,
    createdAt := a.createdAt, updatedAt := a.updatedAt }

/-- Embedding of `DbService.getAccount`: `findUnique` on the id, `null` when absent,
otherwise the summary with the derived balance. -/
def getAccount (st : DbState) (id : String) : Option AccountSummary :=
  (st.accounts.find? (fun a => a.id == id)).map (accountSummaryOf st)

/-- The paginated result shape of `DbService.getAllAccounts`. -/
structure AccountsPage where
  accounts : List AccountSummary
  total : Nat
  page : Nat
  limit : Nat
deriving DecidableEq, Repr

/-- Embedding of `DbService.getAllAccounts`: order by `createdAt` descending, skip
`(page - 1) * limit`, take `limit`, and summarize each account with the same
status-blind balance reduce as `getAccount`. -/
def getAllAccounts (st : DbState) (limit : Nat) (page : Nat) : AccountsPage :=
  let skip := (page - 1) * limit
  let sorted := st.accounts.insertionSort (fun a b => b.createdAt ≤ a.createdAt)
  { accounts := ((sorted.drop skip).take limit).map (accountSummaryOf st),
    total := st.accounts.length, page := page, limit := limit }

/-- Input of `DbService.createLightningTransaction`.  A missing `status`
defaults to PENDING (`input.status || TransactionStatus.PENDING`). -/
structure CreateLightningTransactionInput where
  accountId : String
  rHash : String
  amount : Int
  type : TransactionType
  status : Option TransactionStatus
  memo : Option String
deriving DecidableEq, Repr

/-- Embedding of `DbService.createLightningTransaction`: first the account existence check
(`NotFoundError` when absent), then the duplicate-hash check (plain error when
a row with this `rHash` exists), then the insert.  On error the store is
returned unchanged. -/
def createLightningTransaction (st : DbState) (input : CreateLightningTransactionInput)
    (newId : String) (now : Nat) : Except DbErr TransactionSummary × DbState :=
  if (st.accounts.find? (fun a => a.id == input.accountId)).isNone then
    (.error (.accountNotFound input.accountId), st)
  else if (st.transactions.find? (fun tx => tx.rHash == input.rHash)).isSome then
    (.error (.duplicateRHash input.rHash), st)
  else
    let tx : LightningTransaction :=
      { id := newId, accountId := input.accountId, rHash := input.rHash,
        amount := input.amount, type := input.type,
        status := input.status.getD .PENDING, memo := input.memo,
        createdAt := now, updatedAt := now }
    (.ok (txSummary tx), { st with transactions := st.transactions ++ [tx] })

/-- Embedding of `DbService.getTransactionByRHash`: `findUnique` on the hash. -/
def getTransactionByRHash (st : DbState) (rHash : String) : Option TransactionSummary :=
  (st.transactions.find? (fun tx => tx.rHash == rHash)).map txSummary

/-- The row rewrite Prisma `update` performs: set `status` on the row whose
`rHash` matches (Prisma also refreshes `updatedAt`); other rows untouched. -/
def applyStatus (status : TransactionStatus) (now : Nat) (rHash : String)
    (tx : LightningTransaction) : LightningTransaction :=
  if tx.rHash == rHash then { tx with status := status, updatedAt := now } else tx

/-- Embedding of `DbService.updateTransactionStatus`: `findUnique` on the hash,
`NotFoundError` when absent, otherwise `update` of the `status` column only.
The source performs no check on the current status: there is no terminal-state
guard in this function nor anywhere else in the repository. -/
def updateTransactionStatus (st : DbState) (rHash : String)
    (status : TransactionStatus) (now : Nat) : Except DbErr TransactionSummary × DbState :=
  match st.transactions.find? (fun tx => tx.rHash == rHash) with
  | none => (.error (.transactionNotFound rHash), st)
  | some tx0 =>
      (.ok (txSummary { tx0 with status := status, updatedAt := now }),
       { st with transactions := st.transactions.map (applyStatus status now rHash) })

/-- No two rows share an `rHash`: the `@unique` constraint of the schema. -/
def hashesUnique (st : DbState) : Prop :=
  st.transactions.Pairwise (fun a b => a.rHash ≠ b.rHash)

/-- The balance endpoint of `accountController.getAccountBalance`: unlike
`DbService`, it filters to COMPLETE transactions before reducing. -/
def getAccountBalanceEndpoint (st : DbState) (id : String) : Option Int :=
  (st.accounts.find? (fun a => a.id == id)).map (fun a =>
    ((accountTransactions st a.id).filter (fun tx => tx.status == .COMPLETE)).foldl
      txBalanceStep 0)

/-- Signed contribution of one transaction row to a balance. -/
def signedAmount (tx : LightningTransaction) : Int :=
  match tx.type with
  | .INCOMING => tx.amount
  | .OUTGOING => -tx.amount

/-- Sum of the INCOMING amounts of a transaction list. -/
def incomingTotal (txs : List LightningTransaction) : Int :=
  ((txs.filter (fun tx => tx.type == TransactionType.INCOMING)).map
    (fun tx => tx.amount)).sum

/-- Sum of the OUTGOING amounts of a transaction list. -/
def outgoingTotal (txs : List LightningTransaction) : Int :=
  ((txs.filter (fun tx => tx.type == TransactionType.OUTGOING)).map
    (fun tx => tx.amount)).sum

/-- A JavaScript value reaching `lndUtils.toHexString`: `null`/`undefined`,
a string, a `Buffer` (byte list), or anything else (seen only through
`String(value)`). -/
inductive LndValue
  | nullish
  | str (s : String)
  | bytes (b : List Nat)
  | other (text : String)
deriving DecidableEq, Repr

/-- One character of the class `[0-9a-f]` read case-insensitively. -/
def isHexDigitCI (c : Char) : Bool :=
  (('0' ≤ c) && (c ≤ '9')) || (('a' ≤ c) && (c ≤ 'f')) || (('A' ≤ c) && (c ≤ 'F'))

/-- The test `/^[0-9a-f]+$/i.test (s)`: nonempty and all characters hex. -/
def matchesHexCI (s : String) : Bool :=
  !s.isEmpty && s.toList.all isHexDigitCI

/-- Value of a base64 alphabet character; `none` for anything else
(Node ignores characters outside the alphabet). -/
def base64CharVal (c : Char) : Option Nat :=
  if ('A' ≤ c) && (c ≤ 'Z') then some (c.toNat - 65)
  else if ('a' ≤ c) && (c ≤ 'z') then some (c.toNat - 97 + 26)
  else if ('0' ≤ c) && (c ≤ '9') then some (c.toNat - 48 + 52)
  else if c == '+' then some 62
  else if c == '/' then some 63
  else none

/-- Reassemble bytes from 6-bit groups, dropping a trailing lone group as
Node does. -/
def decodeB64Groups : List Nat → List Nat
  | a :: b :: c :: d :: rest =>
      let n := a * 262144 + b * 4096 + c * 64 + d
      (n / 65536) % 256 :: (n / 256) % 256 :: n % 256 :: decodeB64Groups rest
  | [a, b, c] =>
      let n := a * 262144 + b * 4096 + c * 64
      [(n / 65536) % 256, (n / 256) % 256]
  | [a, b] =>
      let n := a * 262144 + b * 4096
      [(n / 65536) % 256]
  | _ => []

/-- Embedding of `Buffer.from (s, base64)`: decode up to the first padding sign, skipping
characters outside the alphabet.  Never throws. -/
def base64DecodeJS (s : String) : List Nat :=
  decodeB64Groups ((s.toList.takeWhile (fun c => c ≠ '=')).filterMap base64CharVal)

/-- Lowercase hex digit of a value below 16. -/
def hexDigit (n : Nat) : Char :=
  if n < 10 then Char.ofNat (48 + n) else Char.ofNat (87 + n)

/-- Two lowercase hex digits of one byte. -/
def byteToHex (b : Nat) : List Char :=
  [hexDigit ((b / 16) % 16), hexDigit (b % 16)]

/-- Hex characters of a byte list. -/
def bytesToHexList : List Nat → List Char
  | [] => []
  | b :: rest => byteToHex b ++ bytesToHexList rest

/-- Embedding of `buffer.toString (hex)`: lowercase hex string of a byte list. -/
def bytesToHex (bs : List Nat) : String :=
  String.mk (bytesToHexList bs)

/-- Does the character list start with the given segment?
(JavaScript `String.startsWith`.) -/
def listIsSegStart : List Char → List Char → Bool
  | [], _ => true
  | _ :: _, [] => false
  | p :: ps, c :: cs => (p == c) && listIsSegStart ps cs

/-- Does the character list contain the given segment anywhere
(JavaScript `String.includes`)? -/
def listHasSeg (needle : List Char) : List Char → Bool
  | [] => listIsSegStart needle []
  | c :: cs => listIsSegStart needle (c :: cs) || listHasSeg needle cs

/-- JavaScript `toLowerCase` on the ASCII strings handled here: lowercase
every character. -/
def strLower (s : String) : String :=
  String.mk (s.toList.map Char.toLower)

/-- Embedding of `lndUtils.toHexString` from `src/services/lndService.ts` (the identical
function also appears in both unnamed `LndService` variants): empty string for
`null`/`undefined`; a string matching `/^[0-9a-f]+$/i` is returned as it is
(the source does NOT lowercase it); any other string goes through base64
decoding then hex encoding (`Buffer.from` never throws, so the catch branch is
dead); a `Buffer` is hex encoded; anything else becomes `String (value)`. -/
def toHexString : LndValue → String
  | .nullish => ""
  | .str s => if matchesHexCI s then s else bytesToHex (base64DecodeJS s)
  | .bytes b => bytesToHex b
  | .other text => text

/-- An error of the LND REST layer (`LndApiError` in the source). -/
structure LndApiFault where
  message : String
  statusCode : Nat
deriving DecidableEq, Repr

/-- The decoded payment request returned by the `payreq` endpoint.  Optional
fields model `undefined`. -/
structure LndDecodedPaymentRequest where
  num_satoshis : Option Int
  payment_hash : LndValue
  description : Option String
deriving DecidableEq, Repr

/-- The response of the `channels/transactions` endpoint. -/
structure LndSendPaymentResponse where
  payment_error : Option String
  payment_preimage : Option String
deriving DecidableEq, Repr

/-- JavaScript truthiness of an optional string field. -/
def optStrTruthy : Option String → Bool
  | some s => !s.isEmpty
  | none => false

/-- The two LND REST endpoints `sendPaymentFromAccount` talks to, recorded in
the order they are invoked. -/
inductive ExtCall
  | decodePaymentRequest (payReq : String)
  | sendPayment (payReq : String)
deriving DecidableEq, Repr

/-- The external LND node as seen through `makeRequest`; each endpoint either
answers or fails with an `LndApiError`. -/
structure LndEnv where
  decodePaymentRequest : String → Except LndApiFault LndDecodedPaymentRequest
  sendPayment : String → Except LndApiFault LndSendPaymentResponse

/-- The errors `sendPaymentFromAccount` can surface to its caller. -/
inductive PayError
  | accountNotFound (id : String)
  | lndApi (e : LndApiFault)
  | insufficientBalance (required : Int) (available : Int)
  | paymentFailed (message : String)
  | db (e : DbErr)
deriving DecidableEq, Repr

/-- Embedding of `LndService.sendPaymentFromAccount` (identical in both unnamed `LndService`
variants).  Steps, in source order: `getAccount` (throw when absent); the
external `decodePaymentRequest` call; `amount` from `num_satoshis` (string
`0` when undefined); the balance comparison `BigInt (balance) < BigInt (amount)`
with a throw on insufficient balance; creation of a PENDING OUTGOING row; the
external `sendPayment` call; on a truthy `payment_error` the row is set FAILED,
a payment-failed error is thrown and the inner catch sets the row FAILED once
more before rethrowing; on an API failure of the send the inner catch sets the
row FAILED and rethrows; on success the row is set COMPLETE and the refreshed
row is returned.  The result carries the list of external calls made, in
order, and the final store.  (The webhook and event-emitter notifications of
this flow touch neither the store nor the external-call list modelled here.) -/
def sendPaymentFromAccount (env : LndEnv) (st : DbState) (accountId : String)
    (payReq : String) (newTxId : String) (now : Nat) :
    Except PayError (Option TransactionSummary) × List ExtCall × DbState :=
  match getAccount st accountId with
  | none => (.error (.accountNotFound accountId), [], st)
  | some account =>
    match env.decodePaymentRequest payReq with
    | .error e => (.error (.lndApi e), [.decodePaymentRequest payReq], st)
    | .ok decoded =>
      let amount : Int := decoded.num_satoshis.getD 0
      if account.balance < amount then
        (.error (.insufficientBalance amount account.balance),
         [.decodePaymentRequest payReq], st)
      else
        let rHash := toHexString decoded.payment_hash
        match createLightningTransaction st
            { accountId := accountId, rHash := rHash, amount := amount,
              type := .OUTGOING, status := some .PENDING,
              memo := some (decoded.description.getD "") } newTxId now with
        | (.error e, _) => (.error (.db e), [.decodePaymentRequest payReq], st)
        | (.ok _, st1) =>
          match env.sendPayment payReq with
          | .error e =>
            let st2 := (updateTransactionStatus st1 rHash .FAILED now).2
            (.error (.lndApi e),
             [.decodePaymentRequest payReq, .sendPayment payReq], st2)
          | .ok resp =>
            if optStrTruthy resp.payment_error then
              let st2 := (updateTransactionStatus st1 rHash .FAILED now).2
              let st3 := (updateTransactionStatus st2 rHash .FAILED now).2
              (.error (.paymentFailed (resp.payment_error.getD "")),
               [.decodePaymentRequest payReq, .sendPayment payReq], st3)
            else
              let st2 := (updateTransactionStatus st1 rHash .COMPLETE now).2
              ((.ok (getTransactionByRHash st2 rHash)),
               [.decodePaymentRequest payReq, .sendPayment payReq], st2)

/-- An invoice returned by the LND `invoices` endpoint, with the fields the
polling code reads. -/
structure LndInvoice where
  memo : Option String
  r_hash_str : Option String
  r_hash : LndValue
  value : Option Int
  settled : Bool
  state : String
deriving Repr

/-- The value of the expression `invoice.r_hash_str || invoice.r_hash`:
an empty `r_hash_str` is falsy and falls through to `r_hash`. -/
def invoiceRHashSource (inv : LndInvoice) : LndValue :=
  match inv.r_hash_str with
  | some s => if s.isEmpty then inv.r_hash else .str s
  | none => inv.r_hash

/-- The status the external invoice state implies: settled means COMPLETE,
CANCELED means FAILED, anything else PENDING. -/
def invoiceNewStatus (inv : LndInvoice) : TransactionStatus :=
  if inv.settled then .COMPLETE
  else if inv.state == "CANCELED" then .FAILED
  else .PENDING

/-- Embedding of `lndUtils.extractUserIdentifier`: `undefined` when no pattern is
configured, otherwise the first capture group of the match.  The JavaScript
regular-expression engine is the `capture` argument (pattern, then memo);
a failed match, a groupless match and an invalid pattern (whose exception the
source catches) all appear as `none`. -/
def extractUserIdentifier (capture : String → String → Option String)
    (memo : String) (pat : Option String) : Option String :=
  match pat with
  | none => none
  | some p => capture p memo

/-- What the poll loop observes of the store adapter (`this.dbService` is
constructor injected in the source).  Every operation can fail with a thrown
error, carried as a message. -/
structure PollDb where
  getTransactionByRHash : String → Except String (Option TransactionSummary)
  updateTransactionStatus : String → TransactionStatus → Except String TransactionSummary
  getAllAccounts : Except String (List AccountSummary)
  createLightningTransaction : CreateLightningTransactionInput → Except String TransactionSummary
deriving Inhabited

/-- Store writes one invoice of a poll tick performs. -/
inductive PollEvent
  | updated (rHash : String) (status : TransactionStatus)
  | created (rHash : String)
deriving DecidableEq, Repr

/-- Embedding of `LndService.handleInvoiceUpdate` (identical in both unnamed `LndService`
variants).  For a tracked hash whose status differs from the external state
the row is updated — a failure of that update is NOT caught here.  For an
untracked invoice with a truthy memo, a configured pattern and a captured
identifier, the account lookup and row creation sit inside a try/catch, so
their failures are logged and swallowed. -/
def handleInvoiceUpdate (db : PollDb) (capture : String → String → Option String)
    (userIdPattern : Option String) (inv : LndInvoice) : Except String (List PollEvent) := do
  let rHash := toHexString (invoiceRHashSource inv)
  let found ← db.getTransactionByRHash rHash
  match found with
  | some tx =>
      let newStatus := invoiceNewStatus inv
      if tx.status ≠ newStatus then do
        let _ ← db.updateTransactionStatus rHash newStatus
        pure [PollEvent.updated rHash newStatus]
      else
        pure []
  | none =>
      match inv.memo, userIdPattern with
      | some memo, some pat =>
          if memo.isEmpty then pure []
          else
            match extractUserIdentifier capture memo (some pat) with
            | some uid =>
                match db.getAllAccounts with
                | .error _ => pure []
                | .ok accounts =>
                  match accounts.find? (fun a => a.name == uid) with
                  | some account =>
                      let status := if inv.settled then TransactionStatus.COMPLETE
                                    else TransactionStatus.PENDING
                      match db.createLightningTransaction
                          { accountId := account.id, rHash := rHash,
                            amount := inv.value.getD 0, type := .INCOMING,
                            status := some status, memo := some memo } with
                      | .error _ => pure []
                      | .ok _ => pure [PollEvent.created rHash]
                  | none => pure []
            | none => pure []
      | _, _ => pure []

/-- Embedding of `this.ACCOUNT_PREFIX` of the part_000 `LndService`. -/
def accountMemoTag : String := "LNDA:"

/-- Embedding of `LndService.isOurInvoice` (part_000): a falsy memo is rejected, otherwise
the memo must start with the account tag. -/
def isOurInvoice (inv : LndInvoice) : Bool :=
  match inv.memo with
  | none => false
  | some m => if m.isEmpty then false else listIsSegStart accountMemoTag.toList m.toList

/-- Per-invoice outcome of the part_000 poll tick. -/
inductive TickOutcome
  | skipped
  | handled (events : List PollEvent)
  | errorCaught
deriving DecidableEq, Repr

/-- The poll-tick body of `setupPolling` in the part_000 `LndService`: each
invoice of the fetched batch is processed inside its OWN try/catch (after the
`isOurInvoice` filter), so an error while processing one invoice is logged
and the loop continues with the next invoice.  The result lists one outcome
per batch entry. -/
def pollTickPart000 (db : PollDb) (capture : String → String → Option String)
    (userIdPattern : Option String) : List LndInvoice → List TickOutcome
  | [] => []
  | inv :: rest =>
      (if !isOurInvoice inv then TickOutcome.skipped
       else
         match handleInvoiceUpdate db capture userIdPattern inv with
         | .error _ => TickOutcome.errorCaught
         | .ok events => TickOutcome.handled events)
      :: pollTickPart000 db capture userIdPattern rest

/-- The poll-tick body of `setupPolling` in the part_001 `LndService`: the
whole for-loop sits inside ONE try/catch, with no per-invoice catch, so an
uncaught error from `handleInvoiceUpdate` aborts the remainder of the batch
(the tick-level catch only logs).  The result lists the events of the
invoices processed before the abort. -/
def pollTickPart001 (db : PollDb) (capture : String → String → Option String)
    (userIdPattern : Option String) : List LndInvoice → List (List PollEvent)
  | [] => []
  | inv :: rest =>
      match handleInvoiceUpdate db capture userIdPattern inv with
      | .error _ => []
      | .ok events => events :: pollTickPart001 db capture userIdPattern rest

/-- A `Webhook` row as returned by `DbService` (`WebhookSummary`). -/
structure WebhookSummary where
  id : String
  accountId : String
  url : String
  secret : String
  enabled : Bool
deriving DecidableEq, Repr

/-- A primitive JSON value.  Every `data` object handed to `notifyWebhooks`
in the source is a flat object of strings, numbers, booleans and enum strings,
so one level of primitives suffices for the payloads modelled here. -/
inductive JVal
  | s (v : String)
  | n (v : Int)
  | b (v : Bool)
  | nullv
deriving DecidableEq, Repr

/-- A flat JSON object: fields in insertion order, as `JSON.stringify`
serializes them. -/
abbrev JObj : Type := List (String × JVal)

/-- Field lookup on a flat JSON object. -/
def jLookup (o : JObj) (key : String) : Option JVal :=
  (o.find? (fun f => f.1 == key)).map (fun f => f.2)

/-- JavaScript truthiness of an (optional) JSON field, as in the
`if (!data.accountId)` guard. -/
def jTruthy : Option JVal → Bool
  | some (.s v) => !v.isEmpty
  | some (.n v) => v != 0
  | some (.b v) => v
  | some .nullv => false
  | none => false

/-- Embedding of `JSON.stringify` escaping of one string character (the characters that
occur in the modelled payloads; the full escaper also covers other control
characters). -/
def escapeJsonChar (c : Char) : List Char :=
  if c = '"' then ['\\', '"']
  else if c = '\\' then ['\\', '\\']
  else if c = '\n' then ['\\', 'n']
  else if c = '\t' then ['\\', 't']
  else if c = '\r' then ['\\', 'r']
  else [c]

/-- Escape every character of a string. -/
def escapeJsonChars : List Char → List Char
  | [] => []
  | c :: rest => escapeJsonChar c ++ escapeJsonChars rest

/-- A JSON string literal with quotes. -/
def jsonQuote (s : String) : String :=
  "\"" ++ String.mk (escapeJsonChars s.toList) ++ "\""

/-- Serialize one primitive JSON value. -/
def jValToString : JVal → String
  | .s v => jsonQuote v
  | .n v => toString v
  | .b true => "true"
  | .b false => "false"
  | .nullv => "null"

/-- Serialize the fields of a flat object, comma separated. -/
def jFieldsToString : List (String × JVal) → String
  | [] => ""
  | [(k, v)] => jsonQuote k ++ ":" ++ jValToString v
  | (k, v) :: rest => jsonQuote k ++ ":" ++ jValToString v ++ "," ++ jFieldsToString rest

/-- Embedding of `JSON.stringify` of a flat object. -/
def jObjToString (o : JObj) : String :=
  "\x7b" ++ jFieldsToString o ++ "\x7d"

/-- The webhook envelope built in `notifyWebhooks`:
object literal `event`, `data`, `timestamp`, in that key order. -/
structure WebhookPayload where
  event : String
  data : JObj
  timestamp : String
deriving DecidableEq, Repr

/-- Embedding of `JSON.stringify (payload)` for the envelope: the same serialization is
used both for the request body and for the signed message. -/
def serializeWebhookPayload (p : WebhookPayload) : String :=
  "\x7b" ++ jsonQuote "event" ++ ":" ++ jsonQuote p.event
    ++ "," ++ jsonQuote "data" ++ ":" ++ jObjToString p.data
    ++ "," ++ jsonQuote "timestamp" ++ ":" ++ jsonQuote p.timestamp ++ "\x7d"

/-- Embedding of `LndService.generateWebhookSignature`:
`crypto.createHmac (sha256, secret) .update (JSON.stringify (data)) .digest (hex)`.
The HMAC-SHA256 primitive of the `crypto` module is the `hmac` argument
(key, then message, returning the digest bytes); the hex encoding is the
`digest (hex)` step. -/
def generateWebhookSignature (hmac : String → String → List Nat)
    (secret : String) (payload : WebhookPayload) : String :=
  bytesToHex (hmac secret (serializeWebhookPayload payload))

/-- One outgoing webhook HTTP POST: target, body and the
`X-Webhook-Signature` header. -/
structure WebhookDelivery where
  url : String
  body : String
  signatureHeader : String
deriving DecidableEq, Repr

/-- Embedding of `LndService.sendWebhookNotification` (part_000; inlined in part_001):
the POST body is `JSON.stringify (payload)` and the signature header is
`generateWebhookSignature (webhook.secret, payload)`. -/
def sendWebhookNotification (hmac : String → String → List Nat)
    (webhook : WebhookSummary) (payload : WebhookPayload) : WebhookDelivery :=
  { url := webhook.url,
    body := serializeWebhookPayload payload,
    signatureHeader := generateWebhookSignature hmac webhook.secret payload }

/-- Embedding of `LndService.notifyWebhooks`: a falsy `data.accountId` makes the call a
no-op; otherwise the enabled webhooks of the account (fetched through
`getWebhooksByAccountId`, passed in here) each receive one signed delivery of
the envelope.  Delivery failures are caught per webhook and do not remove the
delivery attempt. -/
def notifyWebhooks (hmac : String → String → List Nat)
    (webhooks : List WebhookSummary) (event : String) (data : JObj)
    (timestamp : String) : List WebhookDelivery :=
  if !jTruthy (jLookup data "accountId") then []
  else
    (webhooks.filter (fun w => w.enabled)).map
      (fun w => sendWebhookNotification hmac w
        { event := event, data := data, timestamp := timestamp })

/-- Modelled from the spec: outbound webhook receivers "are expected to
verify" the signature header "using the shared secret" — the receiver-side
check recomputes the hex HMAC of the received body and compares it with the
header.  (The receivers are external collaborators; no verifier exists in the
repository.) -/
def webhookVerify (hmac : String → String → List Nat) (secret : String)
    (body : String) (signatureHeader : String) : Bool :=
  bytesToHex (hmac secret body) == signatureHeader

/-- Embedding of `LndMonitorService.determineAccountFromMemo`, step 1: when a pattern is
configured and captures a group from the memo, look up the account whose name
equals the capture (`findUnique` on the unique `name` column); a missing
account falls through to the later steps. -/
def patternAccountHit (capture : String → String → Option String)
    (userIdPattern : Option String) (st : DbState) (memo : String) : Option String :=
  match userIdPattern with
  | some pat =>
      match capture pat memo with
      | some uid => (st.accounts.find? (fun a => a.name == uid)).map (fun a => a.id)
      | none => none
  | none => none

/-- The fallback scan test: the lowercased account name occurs in the
lowercased memo (`memo.toLowerCase ().includes (...)`). -/
def nameMentionedIn (memo : String) (a : Account) : Bool :=
  listHasSeg (strLower a.name).toList (strLower memo).toList

/-- The `findFirst` filter of `findDefaultAccount`: name `default` or
`unassigned`. -/
def isDefaultName (a : Account) : Bool :=
  a.name == "default" || a.name == "unassigned"

/-- The account `findDefaultAccount` creates when none exists. -/
def defaultAccountRecord (newId : String) (now : Nat) : Account :=
  { id := newId, name := "default",
    description := some "Default account for unmatched transactions",
    createdAt := now, updatedAt := now }

/-- Embedding of `LndMonitorService.findDefaultAccount`: first account named `default` or
`unassigned`; otherwise create one named `default` — a creation failure
(`createFails`, the catch branch) is logged and yields `null` instead of
throwing. -/
def findDefaultAccount (st : DbState) (createFails : Bool) (newId : String)
    (now : Nat) : Option Account × DbState :=
  match st.accounts.find? isDefaultName with
  | some a => (some a, st)
  | none =>
      if createFails then (none, st)
      else
        let a := defaultAccountRecord newId now
        (some a, { st with accounts := st.accounts ++ [a] })

/-- Embedding of `LndMonitorService.determineAccountFromMemo`: pattern-capture lookup,
then the first account whose name occurs case-insensitively in the memo,
then the default account (created on demand), and `null` only when even the
default-account creation fails. -/
def determineAccountFromMemo (capture : String → String → Option String)
    (userIdPattern : Option String) (st : DbState) (memo : String)
    (createFails : Bool) (newId : String) (now : Nat) : Option String × DbState :=
  match patternAccountHit capture userIdPattern st memo with
  | some accId => (some accId, st)
  | none =>
    match st.accounts.find? (nameMentionedIn memo) with
    | some a => (some a.id, st)
    | none =>
      match findDefaultAccount st createFails newId now with
      | (some a, st') => (some a.id, st')
      | (none, st') => (none, st')

instance {ε α : Type} [DecidableEq ε] [DecidableEq α] : DecidableEq (Except ε α) := fun x y =>
  match x, y with
  | .ok a, .ok b =>
      if h : a = b then .isTrue (by rw [h]) else .isFalse (fun hc => h (by cases hc; rfl))
  | .error a, .error b =>
      if h : a = b then .isTrue (by rw [h]) else .isFalse (fun hc => h (by cases hc; rfl))
  | .ok _, .error _ => .isFalse (fun hc => Except.noConfusion hc)
  | .error _, .ok _ => .isFalse (fun hc => Except.noConfusion hc)

/-! Concrete fixtures used by the counterexample and witness theorems. -/

/-- An ordinary account row. -/
def acctA1 : Account :=
  { id := "a1", name := "alice", description := none, createdAt := 1, updatedAt := 1 }

/-- A transaction already in the terminal state COMPLETE. -/
def txC1 : LightningTransaction :=
  { id := "t1", accountId := "a1", rHash := "h1", amount := 100,
    type := .INCOMING, status := .COMPLETE, memo := none, createdAt := 1, updatedAt := 1 }

/-- A store holding one account and one COMPLETE transaction. -/
def stC1 : DbState := { accounts := [acctA1], transactions := [txC1] }

/-- The balance example of the spec: Incoming 500 Complete, Outgoing 200
Complete, Incoming 1000 Pending, all on one account. -/
def stC2 : DbState :=
  { accounts := [acctA1],
    transactions :=
      [ { id := "t1", accountId := "a1", rHash := "e1", amount := 500,
          type := .INCOMING, status := .COMPLETE, memo := none, createdAt := 1, updatedAt := 1 },
        { id := "t2", accountId := "a1", rHash := "e2", amount := 200,
          type := .OUTGOING, status := .COMPLETE, memo := none, createdAt := 2, updatedAt := 2 },
        { id := "t3", accountId := "a1", rHash := "e3", amount := 1000,
          type := .INCOMING, status := .PENDING, memo := none, createdAt := 3, updatedAt := 3 } ] }

/-- A duplicate-hash creation input naming an account that does not exist. -/
def inputGhost : CreateLightningTransactionInput :=
  { accountId := "ghost", rHash := "h1", amount := 5, type := .INCOMING,
    status := none, memo := none }

/-- A duplicate-hash creation input naming the existing account. -/
def inputDupA1 : CreateLightningTransactionInput :=
  { accountId := "a1", rHash := "h1", amount := 5, type := .INCOMING,
    status := none, memo := none }

/-- A store whose only account has balance 100. -/
def stC6 : DbState :=
  { accounts := [acctA1],
    transactions :=
      [ { id := "t1", accountId := "a1", rHash := "aa11", amount := 100,
          type := .INCOMING, status := .COMPLETE, memo := none, createdAt := 1, updatedAt := 1 } ] }

/-- An LND node whose decode reports a required amount of 500. -/
def envC6 : LndEnv :=
  { decodePaymentRequest := fun _ =>
      .ok { num_satoshis := some 500, payment_hash := .str "cafe", description := none },
    sendPayment := fun _ =>
      .ok { payment_error := none, payment_preimage := some "p" } }

/-- A tracked PENDING transaction row keyed by its hash. -/
def trackedTx (h : String) : TransactionSummary :=
  { id := "t-" ++ h, accountId := "a1", rHash := h, amount := 1,
    type := .INCOMING, status := .PENDING, memo := some "LNDA:pay",
    createdAt := 0, updatedAt := 0 }

/-- A store adapter that tracks every hash as PENDING and whose status update
fails for the hash `bb` only (a forced per-invoice processing failure). -/
def dbC7 : PollDb :=
  { getTransactionByRHash := fun h => .ok (some (trackedTx h)),
    updateTransactionStatus := fun h s =>
      if h == "bb" then .error "forced store failure"
      else .ok { trackedTx h with status := s },
    getAllAccounts := .ok [],
    createLightningTransaction := fun _ => .error "unreached" }

/-- A settled invoice carrying the account tag in its memo. -/
def invC7 (h : String) : LndInvoice :=
  { memo := some "LNDA:pay", r_hash_str := some h, r_hash := .nullish,
    value := some 5, settled := true, state := "SETTLED" }

/-- A regular-expression engine that never matches. -/
def noCapture : String → String → Option String := fun _ _ => none

/-- A toy keyed-hash primitive for witnesses (one byte; digests stay below
256 as required of real HMAC-SHA256 output bytes). -/
def hmacW : String → String → List Nat :=
  fun key msg => [(key.length + 2 * msg.length) % 256]

/-- An enabled webhook subscription. -/
def webhookW : WebhookSummary :=
  { id := "w1", accountId := "a1", url := "https://example.com/hook",
    secret := "s3cr3t", enabled := true }

/-- A notification data object with a truthy accountId. -/
def dataW : JObj :=
  [("accountId", .s "a1"), ("rHash", .s "aa"), ("status", .s "COMPLETE")]

/-- The envelope the witness delivery signs. -/
def payloadW : WebhookPayload :=
  { event := "invoice.updated", data := dataW, timestamp := "2024-01-01T00:00:00.000Z" }

/-- A store with one ordinary account and no default account. -/
def stC9 : DbState := { accounts := [acctA1], transactions := [] }

/-! Shared helper lemmas. -/

/-- The status-blind balance reduce equals incoming total minus outgoing
total. -/
theorem foldl_txBalanceStep (txs : List LightningTransaction) (acc : Int) :
    txs.foldl txBalanceStep acc = acc + incomingTotal txs - outgoingTotal txs := by
  induction txs generalizing acc with
  | nil => simp [incomingTotal, outgoingTotal]
  | cons tx rest ih =>
      cases htx : tx.type with
      | INCOMING =>
          simp only [List.foldl_cons, ih, txBalanceStep, htx, incomingTotal, outgoingTotal,
            List.filter_cons]
          simp
          ring
      | OUTGOING =>
          simp only [List.foldl_cons, ih, txBalanceStep, htx, incomingTotal, outgoingTotal,
            List.filter_cons]
          simp
          ring

/-- The function `hexDigit` is injective below 16. -/
theorem hexDigit_inj_fin : ∀ a b : Fin 16, hexDigit a.val = hexDigit b.val → a = b := by
  decide

/-- The function `byteToHex` is injective on bytes. -/
theorem byteToHex_inj {b1 b2 : Nat} (h1 : b1 < 256) (h2 : b2 < 256)
    (h : byteToHex b1 = byteToHex b2) : b1 = b2 := by
  simp only [byteToHex, List.cons.injEq, and_true] at h
  obtain ⟨hhi, hlo⟩ := h
  have ha : (⟨b1 / 16 % 16, by omega⟩ : Fin 16) = ⟨b2 / 16 % 16, by omega⟩ :=
    hexDigit_inj_fin _ _ hhi
  have hb : (⟨b1 % 16, by omega⟩ : Fin 16) = ⟨b2 % 16, by omega⟩ :=
    hexDigit_inj_fin _ _ hlo
  have ha2 : b1 / 16 % 16 = b2 / 16 % 16 := congrArg Fin.val ha
  have hb2 : b1 % 16 = b2 % 16 := congrArg Fin.val hb
  omega

/-- Hex encoding is injective on byte lists. -/
theorem bytesToHexList_inj : ∀ {bs1 bs2 : List Nat},
    (∀ b ∈ bs1, b < 256) → (∀ b ∈ bs2, b < 256) →
    bytesToHexList bs1 = bytesToHexList bs2 → bs1 = bs2 := by
  intro bs1
  induction bs1 with
  | nil =>
      intro bs2 _ _ h
      cases bs2 with
      | nil => rfl
      | cons b rest => simp [bytesToHexList, byteToHex] at h
  | cons b1 rest1 ih =>
      intro bs2 hb1 hb2 h
      cases bs2 with
      | nil => simp [bytesToHexList, byteToHex] at h
      | cons b2 rest2 =>
          simp only [bytesToHexList, byteToHex, List.cons_append, List.nil_append,
            List.cons.injEq] at h
          obtain ⟨hc1, hc2, hrest⟩ := h
          have hb : b1 = b2 := by
            apply byteToHex_inj (hb1 b1 (by simp)) (hb2 b2 (by simp))
            simp [byteToHex, hc1, hc2]
          have hr : rest1 = rest2 :=
            ih (fun b hb => hb1 b (by simp [hb])) (fun b hb => hb2 b (by simp [hb])) hrest
          rw [hb, hr]

/-- The function `bytesToHex` is injective on byte lists. -/
theorem bytesToHex_inj {bs1 bs2 : List Nat}
    (h1 : ∀ b ∈ bs1, b < 256) (h2 : ∀ b ∈ bs2, b < 256)
    (h : bytesToHex bs1 = bytesToHex bs2) : bs1 = bs2 := by
  apply bytesToHexList_inj h1 h2
  have := congrArg String.data h
  simpa [bytesToHex] using this

/-! Claim C4. -/

/-- Claim C4, counterexample: the input `AB` matches the hex pattern
case-insensitively, yet `toHexString` returns it unchanged as `AB` — not the
lowercased form `ab` the claim asserts. -/
theorem toHexString_uppercase_kept :
    matchesHexCI "AB" = true ∧
    toHexString (.str "AB") = "AB" ∧
    toHexString (.str "AB") ≠ "ab" := by
  refine ⟨by decide, rfl, by decide⟩

/-- Claim C4 (amended): a string input matching the pattern `[0-9a-f]+`
case-insensitively is returned by `toHexString` exactly as it came in —
unchanged, not lowercased (the two agree only when the input is already
lowercase). -/
theorem toHexString_hex_unchanged (s : String) (h : matchesHexCI s = true) :
    toHexString (.str s) = s := by
  simp only [toHexString, h, if_true]

/-- Claim C4 witness: the amended theorem at the concrete input `AB`. -/
theorem toHexString_hex_unchanged_witness :
    toHexString (.str "AB") = "AB" :=
  toHexString_hex_unchanged "AB" (by decide)

/-! Claim C5. -/

/-- Claim C5: the normalizer is idempotent on every value whose normalized
form is an already-hex string: such a string is matched by the first branch
of `toHexString` and returned unchanged, so a second application is the
identity.  This covers hex, base64 and raw-byte encodings of an underlying
value, whose normalized forms are hex strings. -/
theorem toHexString_idempotent (v : LndValue)
    (h : matchesHexCI (toHexString v) = true) :
    toHexString (.str (toHexString v)) = toHexString v := by
  generalize hx : toHexString v = x at h ⊢
  simp only [toHexString, h, if_true]

/-- Claim C5 witness: the theorem at the base64 input `//8=`, whose
normalized form is the hex string `ffff`. -/
theorem toHexString_idempotent_witness :
    toHexString (.str (toHexString (.str "//8="))) = toHexString (.str "//8=") :=
  toHexString_idempotent (.str "//8=") (by decide)

/-! Claim C1. -/

/-- Claim C1, counterexample: the transaction at hash `h1` is COMPLETE
(a terminal state), yet `updateTransactionStatus` back to PENDING succeeds
and applies the transition instead of rejecting it with an error. -/
theorem updateTransactionStatus_terminal_accepted :
    txC1.status = TransactionStatus.COMPLETE ∧
    (updateTransactionStatus stC1 "h1" .PENDING 5).1.isOk = true ∧
    ((updateTransactionStatus stC1 "h1" .PENDING 5).2.transactions.map
      (fun tx => tx.status)) = [TransactionStatus.PENDING] := by
  refine ⟨rfl, rfl, rfl⟩

/-- Claim C1 (amended): `updateTransactionStatus` rejects a call only when
the hash is unknown; whenever a transaction with the hash exists — whatever
its current status, including the terminal Complete and Failed — the call
succeeds and applies the requested status.  There is no terminal-state
guard. -/
theorem updateTransactionStatus_no_terminal_guard :
    (∀ (st : DbState) (h : String) (s : TransactionStatus) (now : Nat)
       (tx : LightningTransaction), tx ∈ st.transactions → tx.rHash = h →
       (updateTransactionStatus st h s now).1.isOk = true ∧
       ∀ res, (updateTransactionStatus st h s now).1 = .ok res → res.status = s) ∧
    (∀ (st : DbState) (h : String) (s : TransactionStatus) (now : Nat),
       (∀ tx ∈ st.transactions, tx.rHash ≠ h) →
       updateTransactionStatus st h s now = (.error (.transactionNotFound h), st)) := by
  constructor
  · intro st h s now tx hmem hhash
    have hsome : (st.transactions.find? (fun tx => tx.rHash == h)).isSome :=
      List.find?_isSome.mpr ⟨tx, hmem, by simp [hhash]⟩
    obtain ⟨tx0, hfind⟩ := Option.isSome_iff_exists.mp hsome
    simp only [updateTransactionStatus, hfind]
    refine ⟨rfl, ?_⟩
    intro res hres
    cases hres
    rfl
  · intro st h s now hall
    have hfind : st.transactions.find? (fun tx => tx.rHash == h) = none :=
      List.find?_eq_none.mpr (fun x hx => by simpa using hall x hx)
    simp only [updateTransactionStatus, hfind]

/-- Claim C1 witness: the amended theorem applied to the COMPLETE
transaction of the fixture store. -/
theorem updateTransactionStatus_no_terminal_guard_witness :
    (updateTransactionStatus stC1 "h1" TransactionStatus.PENDING 5).1.isOk = true ∧
    updateTransactionStatus stC1 "zz" TransactionStatus.PENDING 5 =
      (.error (.transactionNotFound "zz"), stC1) := by
  constructor
  · exact (updateTransactionStatus_no_terminal_guard.1 stC1 "h1" .PENDING 5 txC1
      (by decide) rfl).1
  · exact updateTransactionStatus_no_terminal_guard.2 stC1 "zz" .PENDING 5 (by decide)

/-! Claim C10. -/

/-- Claim C10: a successful `updateTransactionStatus` changes only the status
(and the `updatedAt` timestamp) of rows at the given hash: the accounts table
is untouched, no row is added or removed, every row keeps its identifier,
owning account, hash, amount, direction, memo and creation timestamp, rows at
other hashes are entirely unchanged, and the row at the hash carries the
requested status. -/
theorem updateTransactionStatus_frame (st : DbState) (h : String)
    (s : TransactionStatus) (now : Nat)
    (hok : (updateTransactionStatus st h s now).1.isOk = true) :
    (updateTransactionStatus st h s now).2.accounts = st.accounts ∧
    (updateTransactionStatus st h s now).2.transactions.length = st.transactions.length ∧
    ∀ (i : Nat) (hi : i < st.transactions.length)
      (hi2 : i < (updateTransactionStatus st h s now).2.transactions.length),
      (((updateTransactionStatus st h s now).2.transactions.get ⟨i, hi2⟩).id =
         (st.transactions.get ⟨i, hi⟩).id ∧
       ((updateTransactionStatus st h s now).2.transactions.get ⟨i, hi2⟩).accountId =
         (st.transactions.get ⟨i, hi⟩).accountId ∧
       ((updateTransactionStatus st h s now).2.transactions.get ⟨i, hi2⟩).rHash =
         (st.transactions.get ⟨i, hi⟩).rHash ∧
       ((updateTransactionStatus st h s now).2.transactions.get ⟨i, hi2⟩).amount =
         (st.transactions.get ⟨i, hi⟩).amount ∧
       ((updateTransactionStatus st h s now).2.transactions.get ⟨i, hi2⟩).type =
         (st.transactions.get ⟨i, hi⟩).type ∧
       ((updateTransactionStatus st h s now).2.transactions.get ⟨i, hi2⟩).memo =
         (st.transactions.get ⟨i, hi⟩).memo ∧
       ((updateTransactionStatus st h s now).2.transactions.get ⟨i, hi2⟩).createdAt =
         (st.transactions.get ⟨i, hi⟩).createdAt ∧
       ((st.transactions.get ⟨i, hi⟩).rHash ≠ h →
         (updateTransactionStatus st h s now).2.transactions.get ⟨i, hi2⟩ =
           st.transactions.get ⟨i, hi⟩) ∧
       ((st.transactions.get ⟨i, hi⟩).rHash = h →
         ((updateTransactionStatus st h s now).2.transactions.get ⟨i, hi2⟩).status = s)) := by
  cases hfind : st.transactions.find? (fun tx => tx.rHash == h) with
  | none =>
      simp [updateTransactionStatus, hfind, Except.isOk, Except.toBool] at hok
  | some tx0 =>
      have hstate : (updateTransactionStatus st h s now).2 =
          { st with transactions := st.transactions.map (applyStatus s now h) } := by
        simp only [updateTransactionStatus, hfind]
      rw [hstate]
      refine ⟨rfl, by simp, ?_⟩
      intro i hi hi2
      have hget : (st.transactions.map (applyStatus s now h)).get ⟨i, hi2⟩ =
          applyStatus s now h (st.transactions.get ⟨i, hi⟩) := by
        simp [List.get_eq_getElem, List.getElem_map]
      set tx := st.transactions.get ⟨i, hi⟩ with htx
      by_cases hh : tx.rHash = h
      · have happ : applyStatus s now h tx = { tx with status := s, updatedAt := now } := by
          simp [applyStatus, hh]
        rw [hget, happ]
        exact ⟨rfl, rfl, rfl, rfl, rfl, rfl, rfl, fun hc => absurd hh hc, fun _ => rfl⟩
      · have happ : applyStatus s now h tx = tx := by
          simp only [applyStatus]
          rw [if_neg (by simpa using hh)]
        rw [hget, happ]
        exact ⟨rfl, rfl, rfl, rfl, rfl, rfl, rfl, fun _ => rfl, fun hc => absurd hc hh⟩

/-- Claim C10 witness: the frame theorem at the fixture store. -/
theorem updateTransactionStatus_frame_witness :
    (updateTransactionStatus stC1 "h1" TransactionStatus.PENDING 5).2.accounts =
      stC1.accounts :=
  (updateTransactionStatus_frame stC1 "h1" .PENDING 5 rfl).1

/-! Claim C2. -/

/-- Claim C2, counterexample: on the account with transactions
[Incoming 500 Complete, Outgoing 200 Complete, Incoming 1000 Pending] the
balance computed by `DbService.getAccount` is 1300, not the 300 the claim
asserts — the Pending 1000 is counted.  Only the separate controller balance
endpoint returns 300. -/
theorem getAccount_example_balance_1300 :
    (getAccount stC2 "a1").map (fun s => s.balance) = some 1300 ∧
    (getAccount stC2 "a1").map (fun s => s.balance) ≠ some 300 ∧
    getAccountBalanceEndpoint stC2 "a1" = some 300 := by
  refine ⟨rfl, by decide, rfl⟩

/-- Claim C2 (amended): the balances computed by `DbService.getAccount` and
`DbService.getAllAccounts` equal the sum of Incoming amounts minus the sum of
Outgoing amounts over ALL of the account transactions — Pending and Failed
included, with no status filter (so the spec example yields 1300); the
Complete-only formula of the claim is implemented only by the account
controller balance endpoint. -/
theorem balance_sums_all_statuses :
    (∀ (st : DbState) (id : String) (s : AccountSummary),
       getAccount st id = some s →
       s.balance = incomingTotal (accountTransactions st id)
         - outgoingTotal (accountTransactions st id)) ∧
    (∀ (st : DbState) (limit page : Nat) (s : AccountSummary),
       s ∈ (getAllAccounts st limit page).accounts →
       ∃ a ∈ st.accounts, s.id = a.id ∧
         s.balance = incomingTotal (accountTransactions st a.id)
           - outgoingTotal (accountTransactions st a.id)) ∧
    (∀ (st : DbState) (id : String) (b : Int),
       getAccountBalanceEndpoint st id = some b →
       ∃ a ∈ st.accounts, a.id = id ∧
         b = incomingTotal ((accountTransactions st a.id).filter
               (fun tx => tx.status == TransactionStatus.COMPLETE))
           - outgoingTotal ((accountTransactions st a.id).filter
               (fun tx => tx.status == TransactionStatus.COMPLETE))) := by
  refine ⟨?_, ?_, ?_⟩
  · intro st id s hs
    simp only [getAccount, Option.map_eq_some'] at hs
    obtain ⟨a, hfind, rfl⟩ := hs
    have hid : a.id = id := by simpa using List.find?_some hfind
    simp only [accountSummaryOf, hid, foldl_txBalanceStep, zero_add]
  · intro st limit page s hs
    simp only [getAllAccounts, List.mem_map] at hs
    obtain ⟨a, hmem, rfl⟩ := hs
    have hsorted : a ∈ st.accounts.insertionSort (fun a b => b.createdAt ≤ a.createdAt) :=
      (List.drop_subset _ _) ((List.take_subset _ _) hmem)
    have haccounts : a ∈ st.accounts :=
      (List.perm_insertionSort (fun a b => b.createdAt ≤ a.createdAt) st.accounts).mem_iff.mp
        hsorted
    exact ⟨a, haccounts, rfl, by
      simp only [accountSummaryOf, foldl_txBalanceStep, zero_add]⟩
  · intro st id b hb
    simp only [getAccountBalanceEndpoint, Option.map_eq_some'] at hb
    obtain ⟨a, hfind, rfl⟩ := hb
    have hid : a.id = id := by simpa using List.find?_some hfind
    refine ⟨a, List.mem_of_find?_eq_some hfind, hid, ?_⟩
    simp only [foldl_txBalanceStep, zero_add]

/-- Claim C2 witness: the first part of the amended theorem at the example
store. -/
theorem balance_sums_all_statuses_witness :
    (accountSummaryOf stC2 acctA1).balance =
      incomingTotal (accountTransactions stC2 "a1")
        - outgoingTotal (accountTransactions stC2 "a1") :=
  balance_sums_all_statuses.1 stC2 "a1" (accountSummaryOf stC2 acctA1) rfl

/-! Claim C3. -/

/-- Claim C3, counterexample: with transaction hash `h1` already recorded, a
`createLightningTransaction` call that reuses the hash but names a nonexistent
account fails with the account NotFound error, not with the duplicate-hash
error the claim asserts for every such call (the account check runs before the
duplicate check). -/
theorem createLightningTransaction_notfound_first :
    (∃ tx ∈ stC1.transactions, tx.rHash = inputGhost.rHash) ∧
    (createLightningTransaction stC1 inputGhost "t9" 9).1 =
      .error (DbErr.accountNotFound "ghost") ∧
    (createLightningTransaction stC1 inputGhost "t9" 9).1 ≠
      .error (DbErr.duplicateRHash "h1") := by
  refine ⟨by decide, rfl, by decide⟩

/-- Claim C3 (amended): when a transaction with the hash already exists, a
second `createLightningTransaction` with the same hash always fails and
leaves the store — in particular the existing transaction — unchanged; the
error is the Conflict/duplicate error whenever the named account exists (with
an absent account the NotFound check fires first).  Moreover creation
preserves hash uniqueness, so the store never holds two transactions with the
same external hash. -/
theorem createLightningTransaction_at_most_once :
    (∀ (st : DbState) (input : CreateLightningTransactionInput)
       (newId : String) (now : Nat),
       (∃ tx ∈ st.transactions, tx.rHash = input.rHash) →
       (createLightningTransaction st input newId now).1.isOk = false ∧
       (createLightningTransaction st input newId now).2 = st ∧
       ((∃ a ∈ st.accounts, a.id = input.accountId) →
         (createLightningTransaction st input newId now).1 =
           .error (.duplicateRHash input.rHash))) ∧
    (∀ (st : DbState) (input : CreateLightningTransactionInput)
       (newId : String) (now : Nat),
       hashesUnique st →
       hashesUnique (createLightningTransaction st input newId now).2) := by
  constructor
  · intro st input newId now hdup
    obtain ⟨tx, htxmem, htxhash⟩ := hdup
    have hdupfind : (st.transactions.find? (fun tx => tx.rHash == input.rHash)).isSome :=
      List.find?_isSome.mpr ⟨tx, htxmem, by simp [htxhash]⟩
    by_cases hacc : (st.accounts.find? (fun a => a.id == input.accountId)).isNone
    · refine ⟨?_, ?_, ?_⟩
      · simp [createLightningTransaction, hacc, Except.isOk, Except.toBool]
      · simp [createLightningTransaction, hacc]
      · intro haexists
        exfalso
        obtain ⟨a, hamem, haid⟩ := haexists
        rw [Option.isNone_iff_eq_none] at hacc
        have := List.find?_eq_none.mp hacc a hamem
        simp [haid] at this
    · refine ⟨?_, ?_, fun _ => ?_⟩ <;>
        simp [createLightningTransaction, hacc, hdupfind, Except.isOk, Except.toBool]
  · intro st input newId now huniq
    by_cases hacc : (st.accounts.find? (fun a => a.id == input.accountId)).isNone
    · simpa [createLightningTransaction, hacc] using huniq
    · by_cases hdup : (st.transactions.find? (fun tx => tx.rHash == input.rHash)).isSome
      · simpa [createLightningTransaction, hacc, hdup] using huniq
      · have hnone : st.transactions.find? (fun tx => tx.rHash == input.rHash) = none := by
          simpa [Option.isSome_iff_exists, Option.eq_none_iff_forall_not_mem] using hdup
        have hall : ∀ tx ∈ st.transactions, tx.rHash ≠ input.rHash := by
          intro tx htx
          have := List.find?_eq_none.mp hnone tx htx
          simpa using this
        have hgoal : hashesUnique
            { st with transactions := st.transactions ++
                [{ id := newId, accountId := input.accountId, rHash := input.rHash,
                   amount := input.amount, type := input.type,
                   status := input.status.getD .PENDING, memo := input.memo,
                   createdAt := now, updatedAt := now }] } := by
          unfold hashesUnique at huniq ⊢
          rw [List.pairwise_append]
          exact ⟨huniq, List.pairwise_singleton _ _,
            fun a ha b hb => by
              have hb2 : b.rHash = input.rHash := by
                simp at hb
                rw [hb]
              rw [hb2]
              exact hall a ha⟩
        simpa [createLightningTransaction, hacc, hdup] using hgoal

/-- Claim C3 witness: both parts of the amended theorem at the fixture store:
the duplicate creation against the existing account fails with the duplicate
error, and uniqueness of hashes is preserved. -/
theorem createLightningTransaction_at_most_once_witness :
    (createLightningTransaction stC1 inputDupA1 "t9" 9).1 =
      .error (.duplicateRHash "h1") ∧
    hashesUnique (createLightningTransaction stC1 inputDupA1 "t9" 9).2 := by
  constructor
  · exact (createLightningTransaction_at_most_once.1 stC1 inputDupA1 "t9" 9
      ⟨txC1, by decide, rfl⟩).2.2 ⟨acctA1, by decide, rfl⟩
  · exact createLightningTransaction_at_most_once.2 stC1 inputDupA1 "t9" 9
      (by unfold hashesUnique; decide)

/-! Claim C6. -/

/-- Claim C6, counterexample: with account balance 100 and a decode reporting
a required amount of 500, `sendPaymentFromAccount` does reject with the
insufficient-balance error and creates no transaction row — but an external
call HAS been made before the rejection: the payment-request decode, so the
external-call trace at the rejection is not empty as the claim asserts. -/
theorem sendPaymentFromAccount_decode_precedes_reject :
    (sendPaymentFromAccount envC6 stC6 "a1" "lnbc1" "t9" 7).1 =
      .error (.insufficientBalance 500 100) ∧
    (sendPaymentFromAccount envC6 stC6 "a1" "lnbc1" "t9" 7).2.1 =
      [ExtCall.decodePaymentRequest "lnbc1"] ∧
    (sendPaymentFromAccount envC6 stC6 "a1" "lnbc1" "t9" 7).2.1 ≠ ([] : List ExtCall) ∧
    (sendPaymentFromAccount envC6 stC6 "a1" "lnbc1" "t9" 7).2.2 = stC6 := by
  refine ⟨rfl, rfl, by decide, rfl⟩

/-- Claim C6 (amended): whenever the decoded payment request demands more
than the account balance, `sendPaymentFromAccount` rejects with the
insufficient-balance error, the external send is never attempted — the only
external call preceding the rejection is the payment-request decode, which
necessarily runs first to learn the required amount — and no transaction row
is created: the store is returned unchanged. -/
theorem sendPaymentFromAccount_insufficient_rejects (env : LndEnv) (st : DbState)
    (accountId payReq newTxId : String) (now : Nat)
    (account : AccountSummary) (decoded : LndDecodedPaymentRequest)
    (hacc : getAccount st accountId = some account)
    (hdec : env.decodePaymentRequest payReq = .ok decoded)
    (hlt : account.balance < decoded.num_satoshis.getD 0) :
    sendPaymentFromAccount env st accountId payReq newTxId now =
      (.error (.insufficientBalance (decoded.num_satoshis.getD 0) account.balance),
       [.decodePaymentRequest payReq], st) := by
  simp only [sendPaymentFromAccount, hacc, hdec]
  rw [if_pos hlt]

/-- Claim C6 witness: the amended theorem at the fixture store (balance 100)
and node (decode reporting 500). -/
theorem sendPaymentFromAccount_insufficient_rejects_witness :
    sendPaymentFromAccount envC6 stC6 "a1" "lnbc1" "t9" 7 =
      (.error (.insufficientBalance 500 100),
       [.decodePaymentRequest "lnbc1"], stC6) :=
  sendPaymentFromAccount_insufficient_rejects envC6 stC6 "a1" "lnbc1" "t9" 7
    (accountSummaryOf stC6 acctA1)
    { num_satoshis := some 500, payment_hash := .str "cafe", description := none }
    rfl rfl (by decide)

/-! Claim C7. -/

/-- Claim C7, counterexample: a batch of three tracked invoices where the
status update of the middle one fails.  In the part_001 poll tick the
exception aborts the batch: only the first invoice is processed and the third
— which the part_000 tick (second conjunct) processes fine on the same input
— is never handled, contradicting the claim that every sibling invoice is
still processed. -/
theorem pollTickPart001_aborts_on_middle_failure :
    pollTickPart001 dbC7 noCapture none [invC7 "aa", invC7 "bb", invC7 "cc"] =
      [[PollEvent.updated "aa" .COMPLETE]] ∧
    pollTickPart000 dbC7 noCapture none [invC7 "aa", invC7 "bb", invC7 "cc"] =
      [TickOutcome.handled [PollEvent.updated "aa" .COMPLETE],
       TickOutcome.errorCaught,
       TickOutcome.handled [PollEvent.updated "cc" .COMPLETE]] ∧
    (pollTickPart001 dbC7 noCapture none [invC7 "aa", invC7 "bb", invC7 "cc"]).length ≠ 3 := by
  refine ⟨rfl, rfl, by decide⟩

/-- Claim C7 (amended): the poll ticks of the two `LndService` variants
diverge.  In the part_000 tick every invoice of the batch is wrapped in its
own try/catch, so whatever errors single invoices raise, the tick produces
one outcome per batch entry and siblings are always processed.  In the
part_001 tick there is no per-invoice catch: an uncaught error from
processing one invoice (for example a failing status update; only
account-resolution errors are caught inside `handleInvoiceUpdate`) aborts the
remainder of the batch, which is processed only up to the failing invoice.
An error fetching the whole batch aborts the tick in both variants. -/
theorem poll_tick_isolation_divergence :
    (∀ (db : PollDb) (capture : String → String → Option String)
       (pat : Option String) (invs : List LndInvoice),
       (pollTickPart000 db capture pat invs).length = invs.length) ∧
    (∀ (db : PollDb) (capture : String → String → Option String)
       (pat : Option String) (pre post : List LndInvoice) (inv : LndInvoice),
       (∀ i ∈ pre, (handleInvoiceUpdate db capture pat i).isOk = true) →
       (handleInvoiceUpdate db capture pat inv).isOk = false →
       (pollTickPart001 db capture pat (pre ++ inv :: post)).length = pre.length) := by
  constructor
  · intro db capture pat invs
    induction invs with
    | nil => rfl
    | cons inv rest ih => simp [pollTickPart000, ih]
  · intro db capture pat pre post inv hok hfail
    induction pre with
    | nil =>
        cases hinv : handleInvoiceUpdate db capture pat inv with
        | ok evs => rw [hinv] at hfail; simp [Except.isOk, Except.toBool] at hfail
        | error e => simp [pollTickPart001, hinv]
    | cons i rest ih =>
        have hi : (handleInvoiceUpdate db capture pat i).isOk = true :=
          hok i (by simp)
        cases hinv : handleInvoiceUpdate db capture pat i with
        | error e => rw [hinv] at hi; simp [Except.isOk, Except.toBool] at hi
        | ok evs =>
            simp only [List.cons_append, pollTickPart001, hinv, List.length_cons,
              List.append_eq]
            rw [ih (fun j hj => hok j (by simp [hj]))]

/-- Claim C7 witness: both parts of the amended theorem at the concrete
failing batch: the part_000 tick yields three outcomes, the part_001 tick
stops after the one invoice preceding the failure. -/
theorem poll_tick_isolation_divergence_witness :
    (pollTickPart000 dbC7 noCapture none [invC7 "aa", invC7 "bb", invC7 "cc"]).length = 3 ∧
    (pollTickPart001 dbC7 noCapture none
      ([invC7 "aa"] ++ invC7 "bb" :: [invC7 "cc"])).length = 1 := by
  constructor
  · exact poll_tick_isolation_divergence.1 dbC7 noCapture none
      [invC7 "aa", invC7 "bb", invC7 "cc"]
  · have h := poll_tick_isolation_divergence.2 dbC7 noCapture none
      [invC7 "aa"] [invC7 "cc"] (invC7 "bb")
      (by intro i hi; simp at hi; rw [hi]; rfl) rfl
    simpa using h

/-! Claim C9. -/

/-- Claim C9: when the memo produces no pattern-capture account match and no
account name occurs case-insensitively in the memo, the resolver falls back
to the designated default account: an existing account named default (or
unassigned) is returned as it is; otherwise an account named `default` is
created and its identifier returned; and if that creation itself fails the
resolver returns none instead of throwing into the poll loop. -/
theorem determineAccountFromMemo_default_fallback
    (capture : String → String → Option String) (pat : Option String)
    (st : DbState) (memo : String) (createFails : Bool) (newId : String) (now : Nat)
    (hpat : patternAccountHit capture pat st memo = none)
    (hscan : ∀ a ∈ st.accounts, nameMentionedIn memo a = false) :
    (∀ a, st.accounts.find? isDefaultName = some a →
       determineAccountFromMemo capture pat st memo createFails newId now =
         (some a.id, st)) ∧
    (st.accounts.find? isDefaultName = none → createFails = false →
       determineAccountFromMemo capture pat st memo createFails newId now =
         (some newId,
          { st with accounts := st.accounts ++ [defaultAccountRecord newId now] }) ∧
       (defaultAccountRecord newId now).name = "default") ∧
    (st.accounts.find? isDefaultName = none → createFails = true →
       determineAccountFromMemo capture pat st memo createFails newId now =
         (none, st)) := by
  have hfindscan : st.accounts.find? (nameMentionedIn memo) = none :=
    List.find?_eq_none.mpr (fun a ha => by simp [hscan a ha])
  refine ⟨?_, ?_, ?_⟩
  · intro a hdef
    simp [determineAccountFromMemo, hpat, hfindscan, findDefaultAccount, hdef]
  · intro hdef hcf
    refine ⟨?_, rfl⟩
    simp [determineAccountFromMemo, hpat, hfindscan, findDefaultAccount, hdef, hcf,
      defaultAccountRecord]
  · intro hdef hcf
    simp [determineAccountFromMemo, hpat, hfindscan, findDefaultAccount, hdef, hcf]

/-- Claim C9 witness: the theorem at a store with one ordinary account and a
memo mentioning nothing: the default account is created and its fresh
identifier returned. -/
theorem determineAccountFromMemo_default_fallback_witness :
    determineAccountFromMemo noCapture none stC9 "hello" false "d1" 3 =
      (some "d1", { stC9 with accounts := stC9.accounts ++ [defaultAccountRecord "d1" 3] }) :=
  ((determineAccountFromMemo_default_fallback noCapture none stC9 "hello" false "d1" 3
    rfl (by decide)).2.1 rfl rfl).1

/-! Claim C8. -/

/-- Claim C8: for every delivery `notifyWebhooks` makes, the signature header
equals the hex-encoded keyed hash — HMAC-SHA256 keyed by that webhook secret,
the `crypto` primitive being the `hmac` argument — of the JSON serialization
of the delivered envelope (event, data, timestamp), which is exactly the
delivered body; recomputing the tag over the delivered body therefore
verifies, and any tampered payload whose tag differs from the signed one
fails verification (digest bytes are below 256, and hex encoding is injective
on such bytes). -/
theorem webhook_signature_is_hmac_of_envelope
    (hmac : String → String → List Nat) (webhooks : List WebhookSummary)
    (event : String) (data : JObj) (timestamp : String) (w : WebhookSummary)
    (hbytes : ∀ k m b, b ∈ hmac k m → b < 256)
    (hw : w ∈ webhooks) (hen : w.enabled = true)
    (hacct : jTruthy (jLookup data "accountId") = true) :
    sendWebhookNotification hmac w { event := event, data := data, timestamp := timestamp }
        ∈ notifyWebhooks hmac webhooks event data timestamp ∧
    (sendWebhookNotification hmac w
        { event := event, data := data, timestamp := timestamp }).signatureHeader
      = bytesToHex (hmac w.secret (serializeWebhookPayload
          { event := event, data := data, timestamp := timestamp })) ∧
    (sendWebhookNotification hmac w
        { event := event, data := data, timestamp := timestamp }).body
      = serializeWebhookPayload { event := event, data := data, timestamp := timestamp } ∧
    webhookVerify hmac w.secret
      (sendWebhookNotification hmac w
        { event := event, data := data, timestamp := timestamp }).body
      (sendWebhookNotification hmac w
        { event := event, data := data, timestamp := timestamp }).signatureHeader = true ∧
    (∀ tampered : String,
       hmac w.secret tampered ≠ hmac w.secret (serializeWebhookPayload
         { event := event, data := data, timestamp := timestamp }) →
       webhookVerify hmac w.secret tampered
         (sendWebhookNotification hmac w
           { event := event, data := data, timestamp := timestamp }).signatureHeader
         = false) := by
  refine ⟨?_, rfl, rfl, ?_, ?_⟩
  · simp only [notifyWebhooks, hacct, Bool.not_true, Bool.false_eq_true, if_false]
    exact List.mem_map_of_mem _ (List.mem_filter.mpr ⟨hw, hen⟩)
  · simp [webhookVerify, sendWebhookNotification, generateWebhookSignature]
  · intro tampered hne
    simp only [webhookVerify, sendWebhookNotification, generateWebhookSignature]
    rw [beq_eq_false_iff_ne]
    intro heq
    exact hne (bytesToHex_inj (fun b hb => hbytes _ _ b hb)
      (fun b hb => hbytes _ _ b hb) heq)

set_option maxRecDepth 4096 in
/-- Claim C8 witness: the theorem at a concrete webhook, envelope and keyed
hash: the delivery occurs with the signed body, and a body extended by one
character fails verification against the attached signature. -/
theorem webhook_signature_is_hmac_of_envelope_witness :
    sendWebhookNotification hmacW webhookW payloadW
        ∈ notifyWebhooks hmacW [webhookW] "invoice.updated" dataW
            "2024-01-01T00:00:00.000Z" ∧
    webhookVerify hmacW webhookW.secret
      (serializeWebhookPayload payloadW ++ "x")
      (sendWebhookNotification hmacW webhookW payloadW).signatureHeader = false := by
  have h := webhook_signature_is_hmac_of_envelope hmacW [webhookW] "invoice.updated"
    dataW "2024-01-01T00:00:00.000Z" webhookW
    (by intro k m b hb; simp [hmacW] at hb; omega)
    (by simp) rfl rfl
  exact ⟨h.1, h.2.2.2.2 (serializeWebhookPayload payloadW ++ "x") (by decide)⟩

end LndDea
